import Mathlib

set_option maxRecDepth 200000

/-!
Verification of the flip-flop ratio reporting tool (`ff.py`).

The tool drives an external synthesis program, captures its textual
output, extracts three integer counts with regular expressions, computes
derived area/ratio metrics, and renders them as text or CSV.

This file embeds the pure computational content of the source:

* the three regular-expression extractions of `get_counts`
  (`re.findall(r'(\d+) objects', out)`,
  `re.search(r'^\s*(\d+)\s+cells\s*$', out, re.MULTILINE)`,
  `re.finditer(r'\band\s*=\s*(\d+)', out)`) as executable scanners over
  `List Char`, following the leftmost-match, non-overlapping semantics of
  the Python `re` engine (character classes are modelled over their ASCII
  content, which covers every input considered here);
* the metric computation of `main` (exact rational arithmetic stands in
  for Python floats; all values proved about are exactly representable);
* the CSV rendering, with fixed-point formatting modelled as rounding of
  the exact rational (it agrees with CPython float formatting whenever
  the value is not within double-rounding distance of a decimal midpoint,
  which holds for every value evaluated here);
* the per-design processing loop of `main` with the filesystem, the
  design catalog and the synthesis subprocess abstracted as parameters.
-/

namespace FFTool

/-- ASCII content of the regex class `\s` (Python whitespace). -/
def isSpaceChar (c : Char) : Bool :=
  c == ' ' || c == '\t' || c == '\n' || c == '\r' || c == '\x0B' || c == '\x0C'

/-- ASCII content of the regex class `\w` (used for the `\b` boundary). -/
def isWordChar (c : Char) : Bool :=
  c.isAlpha || c.isDigit || c == '_'

/-- Integer value of a digit string, as Python `int` reads a `(\d+)` capture. -/
def natOfDigits (ds : List Char) : Nat :=
  ds.foldl (fun n c => 10 * n + (c.toNat - 48)) 0

/-- Scanner for `re.findall(r'(\d+) objects', output)` (`ff.py` line 84).

At each position, a match requires a maximal digit run followed by the
literal `" objects"`; the capture is the digit run and scanning resumes
after the literal (non-overlapping matches, left to right).  The fuel is
an upper bound on the number of scan steps; each step consumes at least
one character, so `findObjects` supplies enough. -/
def findObjectsGo : Nat → List Char → List Nat
  | 0, _ => []
  | _ + 1, [] => []
  | fuel + 1, c :: cs =>
    if c.isDigit then
      let run := (c :: cs).takeWhile Char.isDigit
      let rest := (c :: cs).dropWhile Char.isDigit
      if (" objects".toList).isPrefixOf rest then
        natOfDigits run :: findObjectsGo fuel (rest.drop 8)
      else
        findObjectsGo fuel cs
    else
      findObjectsGo fuel cs

/-- All `(\d+) objects` captures of the text, in order of appearance. -/
def findObjects (l : List Char) : List Nat :=
  findObjectsGo l.length l

/-- One attempted match of `\band\s*=\s*(\d+)` at the current position
(the `\b` context is handled by the caller).  Returns the capture and the
remainder of the text after the match. -/
def matchAnd : List Char → Option (Nat × List Char)
  | 'a' :: 'n' :: 'd' :: l1 =>
    match l1.dropWhile isSpaceChar with
    | '=' :: l3 =>
      let l4 := l3.dropWhile isSpaceChar
      let run := l4.takeWhile Char.isDigit
      if run.isEmpty then none
      else some (natOfDigits run, l4.dropWhile Char.isDigit)
    | _ => none
  | _ => none

/-- Scanner for `re.finditer(r'\band\s*=\s*(\d+)', output)` (`ff.py`
line 92).  `prevWord` tracks whether the character before the current
position is a word character (for the `\b` boundary); after a match the
previous character is the last captured digit, hence a word character. -/
def findAndGo : Nat → Bool → List Char → List Nat
  | 0, _, _ => []
  | _ + 1, _, [] => []
  | fuel + 1, prevWord, c :: cs =>
    match (if prevWord then none else matchAnd (c :: cs)) with
    | some (n, rest) => n :: findAndGo fuel true rest
    | none => findAndGo fuel (isWordChar c) cs

/-- All `\band\s*=\s*(\d+)` captures of the text, in order of appearance. -/
def findAnd (l : List Char) : List Nat :=
  findAndGo l.length false l

/-- One attempted match of `^\s*(\d+)\s+cells\s*$` (MULTILINE) at a line
start, on the suffix of the text beginning there.  `\s` may cross line
boundaries; the final `\s*$` succeeds exactly when the whitespace run
after `cells` reaches the end of the text or contains a newline. -/
def matchCells (l : List Char) : Option Nat :=
  let l1 := l.dropWhile isSpaceChar
  let run := l1.takeWhile Char.isDigit
  if run.isEmpty then none
  else
    let l2 := l1.dropWhile Char.isDigit
    if (l2.takeWhile isSpaceChar).isEmpty then none
    else
      let l3 := l2.dropWhile isSpaceChar
      if ("cells".toList).isPrefixOf l3 then
        let l4 := l3.drop 5
        if (l4.dropWhile isSpaceChar).isEmpty || (l4.takeWhile isSpaceChar).contains '\n'
        then some (natOfDigits run) else none
      else none

/-- Scanner for `re.search(r'^\s*(\d+)\s+cells\s*$', output, re.MULTILINE)`
(`ff.py` line 87): try every position that is the start of the text or
follows a newline, left to right, and return the first successful match. -/
def searchCellsGo : Bool → List Char → Option Nat
  | _, [] => none
  | atStart, c :: cs =>
    match (if atStart then matchCells (c :: cs) else none) with
    | some n => some n
    | none => searchCellsGo (c == '\n') cs

/-- Leftmost match of the MULTILINE cells pattern, if any. -/
def searchCells (l : List Char) : Option Nat :=
  searchCellsGo true l

/-- The three integers extracted from one raw synthesis report. -/
structure Counts where
  ff_count : Nat
  total_cells : Nat
  abc_area : Nat
deriving DecidableEq

/-- The pure extraction performed by `get_counts` (`ff.py` lines 84-95)
on the captured output text: first `objects` capture (else 0) is the
flip-flop count; the cells-line match, else the second `objects` capture,
else 0, is the total cell count; the sum of all `and = N` captures is the
ABC area. -/
def get_counts (output : List Char) : Counts :=
  let counts := findObjects output
  let ff_count := match counts with | [] => 0 | n :: _ => n
  let total_from_select := match counts with | _ :: m :: _ => m | _ => 0
  let total_cells := match searchCells output with | some n => n | none => total_from_select
  let abc_area := (findAnd output).sum
  ⟨ff_count, total_cells, abc_area⟩

def FF_TYPES : List String := [
  "$sr", "$ff", "$dff", "$dffe", "$dffsr", "$dffsre",
  "$adff", "$adffe", "$aldff", "$aldffe", "$sdff", "$sdffe",
  "$sdffce", "$dlatch", "$adlatch", "$dlatchsr", "$_DFF_N_", "$_DFF_P_",
  "$_DFF_NN0_", "$_DFF_NN1_", "$_DFF_NP0_", "$_DFF_NP1_", "$_DFF_PN0_", "$_DFF_PN1_",
  "$_DFF_PP0_", "$_DFF_PP1_", "$_DFFE_NN_", "$_DFFE_NP_", "$_DFFE_PN_", "$_DFFE_PP_",
  "$_DFFE_NN0N_", "$_DFFE_NN0P_", "$_DFFE_NN1N_", "$_DFFE_NN1P_", "$_DFFE_NP0N_", "$_DFFE_NP0P_",
  "$_DFFE_NP1N_", "$_DFFE_NP1P_", "$_DFFE_PN0N_", "$_DFFE_PN0P_", "$_DFFE_PN1N_", "$_DFFE_PN1P_",
  "$_DFFE_PP0N_", "$_DFFE_PP0P_", "$_DFFE_PP1N_", "$_DFFE_PP1P_", "$_DFFSR_NNN_", "$_DFFSR_NNP_",
  "$_DFFSR_NPN_", "$_DFFSR_NPP_", "$_DFFSR_PNN_", "$_DFFSR_PNP_", "$_DFFSR_PPN_", "$_DFFSR_PPP_",
  "$_DFFSRE_NNNN_", "$_DFFSRE_NNNP_", "$_DFFSRE_NNPN_", "$_DFFSRE_NNPP_", "$_DFFSRE_NPNN_", "$_DFFSRE_NPNP_",
  "$_DFFSRE_NPPN_", "$_DFFSRE_NPPP_", "$_DFFSRE_PNNN_", "$_DFFSRE_PNNP_", "$_DFFSRE_PNPN_", "$_DFFSRE_PNPP_",
  "$_DFFSRE_PPNN_", "$_DFFSRE_PPNP_", "$_DFFSRE_PPPN_", "$_DFFSRE_PPPP_", "$_SDFF_NN0_", "$_SDFF_NN1_",
  "$_SDFF_NP0_", "$_SDFF_NP1_", "$_SDFF_PN0_", "$_SDFF_PN1_", "$_SDFF_PP0_", "$_SDFF_PP1_",
  "$_SDFFE_NN0N_", "$_SDFFE_NN0P_", "$_SDFFE_NN1N_", "$_SDFFE_NN1P_", "$_SDFFE_NP0N_", "$_SDFFE_NP0P_",
  "$_SDFFE_NP1N_", "$_SDFFE_NP1P_", "$_SDFFE_PN0N_", "$_SDFFE_PN0P_", "$_SDFFE_PN1N_", "$_SDFFE_PN1P_",
  "$_SDFFE_PP0N_", "$_SDFFE_PP0P_", "$_SDFFE_PP1N_", "$_SDFFE_PP1P_", "$_SDFFCE_NN0N_", "$_SDFFCE_NN0P_",
  "$_SDFFCE_NN1N_", "$_SDFFCE_NN1P_", "$_SDFFCE_NP0N_", "$_SDFFCE_NP0P_", "$_SDFFCE_NP1N_", "$_SDFFCE_NP1P_",
  "$_SDFFCE_PN0N_", "$_SDFFCE_PN0P_", "$_SDFFCE_PN1N_", "$_SDFFCE_PN1P_", "$_SDFFCE_PP0N_", "$_SDFFCE_PP0P_",
  "$_SDFFCE_PP1N_", "$_SDFFCE_PP1P_", "$_DLATCH_N_", "$_DLATCH_P_", "$_DLATCH_NN0_", "$_DLATCH_NN1_",
  "$_DLATCH_NP0_", "$_DLATCH_NP1_", "$_DLATCH_PN0_", "$_DLATCH_PN1_", "$_DLATCH_PP0_", "$_DLATCH_PP1_",
  "$_DLATCHSR_NNN_", "$_DLATCHSR_NNP_", "$_DLATCHSR_NPN_", "$_DLATCHSR_NPP_", "$_DLATCHSR_PNN_", "$_DLATCHSR_PNP_",
  "$_DLATCHSR_PPN_", "$_DLATCHSR_PPP_", "$_ALDFF_NN_", "$_ALDFF_NP_", "$_ALDFF_PN_", "$_ALDFF_PP_",
  "$_ALDFFE_NNN_", "$_ALDFFE_NNP_", "$_ALDFFE_NPN_", "$_ALDFFE_NPP_", "$_ALDFFE_PNN_", "$_ALDFFE_PNP_",
  "$_ALDFFE_PPN_", "$_ALDFFE_PPP_", "$_SR_NN_", "$_SR_NP_", "$_SR_PN_", "$_SR_PP_"
]

/-- The flip-flop selection query built in `get_counts` (`ff.py` line 72):
`" ".join(f"t:{t}" for t in FF_TYPES)`. -/
def ff_select : String :=
  String.intercalate " " (FF_TYPES.map (fun t => "t:" ++ t))

/-- One per-design result record (`ff.py` lines 163-173).  Rationals stand
in for Python floats. -/
structure ResultRecord where
  design : String
  ff : Nat
  logic : Int
  total : Nat
  ratio : ℚ
  abc_area : Nat
  ff_area : Int
  total_area : Int
  ff_area_pct : ℚ

/-- The metric computation of `main` (`ff.py` lines 158-173): logic count,
ratio (0 when the total is 0), flip-flop area, total area, flip-flop area
percentage (0 unless the total area is positive). -/
def computeMetrics (tag : String) (ff total abc_area : Nat) (ff_size : Int) : ResultRecord :=
  let logic : Int := (total : Int) - (ff : Int)
  let ratio : ℚ := if 0 < total then (ff : ℚ) / (total : ℚ) else 0
  let ff_area : Int := (ff : Int) * ff_size
  let total_area : Int := (abc_area : Int) + ff_area
  let ff_area_pct : ℚ := if 0 < total_area then (ff_area : ℚ) / (total_area : ℚ) * 100 else 0
  ⟨tag, ff, logic, total, ratio, abc_area, ff_area, total_area, ff_area_pct⟩

/-- Fixed-point decimal rendering of an exact rational with `d` digits
after the point, rounding the magnitude half-up.  This models CPython
`format(x, '.df')` at every value whose rational is not within
double-rounding distance of a decimal midpoint (all values rendered in
this development are far from midpoints). -/
def formatFixed (d : Nat) (q : ℚ) : String :=
  let aq : ℚ := if q < 0 then -q else q
  let n : Int := ⌊aq * 10 ^ d + 1 / 2⌋
  let ip : Int := n / 10 ^ d
  let fp : Nat := (n % 10 ^ d).toNat
  let fracStr := toString fp
  let pad := String.mk (List.replicate (d - fracStr.length) '0')
  (if q < 0 then "-" else "") ++ toString ip ++
    (if d = 0 then "" else "." ++ pad ++ fracStr)

/-- The CSV header row printed by `main` (`ff.py` line 180). -/
def csvHeader : String :=
  "design,ff,logic,total,ff_ratio,abc_area,ff_area,total_area,ff_area_pct"

/-- One CSV data row (`ff.py` line 182): the ratio with 4 decimal places,
the area percentage with 2, every other numeric field as a plain integer. -/
def csvRow (r : ResultRecord) : String :=
  r.design ++ "," ++ toString r.ff ++ "," ++ toString r.logic ++ "," ++
    toString r.total ++ "," ++ formatFixed 4 r.ratio ++ "," ++
    toString r.abc_area ++ "," ++ toString r.ff_area ++ "," ++
    toString r.total_area ++ "," ++ formatFixed 2 r.ff_area_pct

/-- Split a character list at every occurrence of a separator character
(the pieces do not contain the separator). -/
def splitOnChar (sep : Char) : List Char → List (List Char)
  | [] => [[]]
  | c :: cs =>
    if c == sep then [] :: splitOnChar sep cs
    else
      match splitOnChar sep cs with
      | [] => [[c]]
      | l :: ls => (c :: l) :: ls

/-- The lines of a text, split at newlines. -/
def splitLines (l : List Char) : List (List Char) :=
  splitOnChar '\n' l

/-- Formalization of the claim wording for the authoritative total-cell
pattern: a single LINE consisting of optional whitespace, an integer,
whitespace, `cells`, optional trailing whitespace.  Returns the integer
when the line has that shape. -/
def lineCellsValue (l : List Char) : Option Nat :=
  let l1 := l.dropWhile isSpaceChar
  let run := l1.takeWhile Char.isDigit
  if run.isEmpty then none
  else
    let l2 := l1.dropWhile Char.isDigit
    if (l2.takeWhile isSpaceChar).isEmpty then none
    else
      let l3 := l2.dropWhile isSpaceChar
      if ("cells".toList).isPrefixOf l3 && (l3.drop 5).all isSpaceChar
      then some (natOfDigits run) else none

/-- Formalization of the total-cell-count policy exactly as the claim
words it: the integer of the first line matching the cells pattern when
one exists, otherwise the second `objects` capture, otherwise zero. -/
def claimTotalCells (t : List Char) : Nat :=
  match (splitLines t).findSome? lineCellsValue with
  | some n => n
  | none => match findObjects t with | _ :: m :: _ => m | _ => 0

/-- How the designs to process are determined (`ff.py` lines 134-142):
either one explicitly named design with its tag, or the list discovered
in the artifacts directory (the catalog itself is an external
collaborator, abstracted as the discovered list). -/
inductive DesignSource where
  | single (design tag : String)
  | discovery (discovered : List String)

/-- The `(design, tag)` pairs the main loop iterates over. -/
def designsToRun : DesignSource → List (String × String)
  | DesignSource.single design tag => [(design, tag)]
  | DesignSource.discovery ds => ds.map (fun d => (d, d))

/-- The artifact file path for a tag (`ff.py` line 146). -/
def artifactPath (tag : String) : String :=
  "artifacts/" ++ tag ++ ".il"

/-- The per-design loop of `main` (`ff.py` lines 144-173), with the
filesystem (`ex`, existence of a path) and the synthesis invocation
(`cnts`, extracted counts per tag) abstracted: a design whose artifact is
missing contributes one error line and no result; every other design
contributes one result record. Returns (error lines, result records), in
processing order. -/
def processLoop (ex : String → Bool) (cnts : String → Counts) (w : Int) :
    List (String × String) → List String × List ResultRecord
  | [] => ([], [])
  | (_, tag) :: rest =>
    let r := processLoop ex cnts w rest
    if ex (artifactPath tag) then
      let c := cnts tag
      (r.1, computeMetrics tag c.ff_count c.total_cells c.abc_area w :: r.2)
    else
      (("Artifact not found: " ++ artifactPath tag) :: r.1, r.2)

/-- Observable outcome of one run: exit code, error-stream lines, result
records. -/
structure RunOutcome where
  exitCode : Nat
  errLines : List String
  results : List ResultRecord

/-- The epilogue of `main` (`ff.py` lines 175-177): with no results the
run reports `No results` and exits 1, otherwise it completes (exit 0). -/
def finishRun (p : List String × List ResultRecord) : RunOutcome :=
  if p.2.isEmpty then ⟨1, p.1 ++ ["No results"], p.2⟩
  else ⟨0, p.1, p.2⟩

/-- The control flow of `main` around the loop (`ff.py` lines 134-177):
empty discovery exits 1 immediately; an empty result list after the loop
exits 1; otherwise the run completes with exit code 0. -/
def mainRun (src : DesignSource) (ex : String → Bool) (cnts : String → Counts)
    (w : Int) : RunOutcome :=
  match src with
  | DesignSource.discovery [] => ⟨1, ["No designs found in artifacts/"], []⟩
  | _ => finishRun (processLoop ex cnts w (designsToRun src))

/-! ### Helper lemmas about the scanners -/

theorem length_dropWhile_le (p : Char → Bool) (l : List Char) :
    (l.dropWhile p).length ≤ l.length :=
  List.Sublist.length_le (List.dropWhile_sublist _)

theorem findObjectsGo_congr :
    ∀ (f g : Nat) (l : List Char), l.length ≤ f → l.length ≤ g →
      findObjectsGo f l = findObjectsGo g l := by
  intro f
  induction f with
  | zero =>
    intro g l hf _
    have hl : l = [] := List.eq_nil_of_length_eq_zero (Nat.le_zero.mp hf)
    subst hl
    cases g <;> rfl
  | succ f ih =>
    intro g l hf hg
    cases l with
    | nil => cases g <;> rfl
    | cons c cs =>
      cases g with
      | zero => simp at hg
      | succ g =>
        have hfc : cs.length ≤ f := by simpa using hf
        have hgc : cs.length ≤ g := by simpa using hg
        simp only [findObjectsGo]
        by_cases hd : c.isDigit = true
        · have hrest : ((c :: cs).dropWhile Char.isDigit).length ≤ cs.length := by
            rw [List.dropWhile_cons]
            simp only [hd, if_true]
            exact length_dropWhile_le _ _
          by_cases hp : ((" objects".toList).isPrefixOf ((c :: cs).dropWhile Char.isDigit)) = true
          · simp only [hd, hp, if_true]
            have hdrop : (((c :: cs).dropWhile Char.isDigit).drop 8).length ≤ cs.length := by
              have := List.length_drop 8 ((c :: cs).dropWhile Char.isDigit)
              omega
            rw [ih g (((c :: cs).dropWhile Char.isDigit).drop 8) (by omega) (by omega)]
          · simp only [hd, hp, if_true, if_false, Bool.false_eq_true]
            exact ih g cs (by omega) (by omega)
        · simp only [hd, Bool.false_eq_true, if_false]
          exact ih g cs (by omega) (by omega)

theorem takeWhile_append_of_all (p : Char → Bool) :
    ∀ (xs ys : List Char), (∀ c ∈ xs, p c = true) →
      List.takeWhile p (xs ++ ys) = xs ++ List.takeWhile p ys := by
  intro xs
  induction xs with
  | nil => intro ys _; rfl
  | cons x xs ih =>
    intro ys h
    have hx : p x = true := h x (by simp)
    simp only [List.cons_append, List.takeWhile_cons, hx, if_true]
    rw [ih ys (fun c hc => h c (by simp [hc]))]

theorem dropWhile_append_of_all (p : Char → Bool) :
    ∀ (xs ys : List Char), (∀ c ∈ xs, p c = true) →
      List.dropWhile p (xs ++ ys) = List.dropWhile p ys := by
  intro xs
  induction xs with
  | nil => intro ys _; rfl
  | cons x xs ih =>
    intro ys h
    have hx : p x = true := h x (by simp)
    simp only [List.cons_append, List.dropWhile_cons, hx, if_true]
    exact ih ys (fun c hc => h c (by simp [hc]))

theorem isPrefixOf_append_self :
    ∀ (xs ys : List Char), xs.isPrefixOf (xs ++ ys) = true := by
  intro xs
  induction xs with
  | nil => intro ys; simp [List.isPrefixOf]
  | cons x xs ih =>
    intro ys
    simp only [List.cons_append, List.isPrefixOf, beq_self_eq_true, Bool.true_and]
    simp only [List.append_eq]
    exact ih ys

/-- Skipping a non-digit character never changes the `objects` matches. -/
theorem findObjects_cons_of_not_digit (c : Char) (t : List Char)
    (h : c.isDigit = false) : findObjects (c :: t) = findObjects t := by
  simp only [findObjects, List.length_cons, findObjectsGo, h, Bool.false_eq_true, if_false]

/-- A maximal digit run followed by the literal `" objects"` is matched at
the front, captured whole, and scanning resumes after the literal. -/
theorem findObjects_append_match (run rest : List Char) (h1 : run ≠ [])
    (h2 : ∀ c ∈ run, c.isDigit = true) :
    findObjects (run ++ " objects".toList ++ rest) =
      natOfDigits run :: findObjects rest := by
  cases run with
  | nil => exact absurd rfl h1
  | cons r rs =>
    have hr : r.isDigit = true := h2 r (by simp)
    have htake : List.takeWhile Char.isDigit ((r :: rs) ++ " objects".toList ++ rest)
        = r :: rs := by
      rw [List.append_assoc, takeWhile_append_of_all Char.isDigit (r :: rs) _ h2]
      simp [List.takeWhile_cons]
    have hdrop : List.dropWhile Char.isDigit ((r :: rs) ++ " objects".toList ++ rest)
        = " objects".toList ++ rest := by
      rw [List.append_assoc, dropWhile_append_of_all Char.isDigit (r :: rs) _ h2]
      simp [List.dropWhile_cons]
    have hlen8 : (" objects".toList).length = 8 := rfl
    have hpre : (" objects".toList).isPrefixOf (" objects".toList ++ rest) = true :=
      isPrefixOf_append_self _ _
    have hcons : (r :: rs) ++ " objects".toList ++ rest
        = r :: (rs ++ " objects".toList ++ rest) := by simp
    rw [hcons] at htake hdrop ⊢
    simp only [findObjects, List.length_cons, findObjectsGo, hr, if_true, htake, hdrop,
      hpre]
    rw [← hlen8, List.drop_left]
    have hb : rest.length ≤ (rs ++ " objects".toList ++ rest).length := by
      simp only [List.length_append]
      omega
    rw [findObjectsGo_congr (rs ++ " objects".toList ++ rest).length rest.length rest hb
      (Nat.le_refl _)]

/-! ### Claim theorems -/

/-- C8: the flip-flop count returned by `get_counts` is the integer of the
first non-overlapping `<integer> objects` match in order of appearance
when one exists, and zero when there is none; all-zero counts are a valid
output.  (The third and fourth conjuncts characterise the scanner: a
non-digit character is skipped, and a digit run followed by the literal
`" objects"` is matched first and captured whole, with scanning resuming
after the match.) -/
theorem c8_ff_count_policy :
    (∀ t, (get_counts t).ff_count = match findObjects t with | [] => 0 | n :: _ => n) ∧
    (∀ t, findObjects t = [] → (get_counts t).ff_count = 0) ∧
    (∀ c t, c.isDigit = false → findObjects (c :: t) = findObjects t) ∧
    (∀ run rest, run ≠ [] → (∀ c ∈ run, c.isDigit = true) →
      findObjects (run ++ " objects".toList ++ rest) = natOfDigits run :: findObjects rest) ∧
    findObjects ("42 objects x 7 objects".toList) = [42, 7] ∧
    (get_counts ("42 objects x 7 objects".toList)).ff_count = 42 ∧
    get_counts ("no counts here".toList) = ⟨0, 0, 0⟩ := by
  refine ⟨fun t => rfl, fun t h => ?_, findObjects_cons_of_not_digit,
    findObjects_append_match, by decide, by decide, by decide⟩
  simp [get_counts, h]

/-- Witness for C8 at a concrete input: a text with no `objects` match
yields flip-flop count zero. -/
theorem c8_witness :
    findObjects ("xyz".toList) = [] ∧ (get_counts ("xyz".toList)).ff_count = 0 :=
  ⟨by decide, c8_ff_count_policy.2.1 _ (by decide)⟩

/-- C2: the ABC area returned by `get_counts` is the sum of the integer
operands of every occurrence of the pattern `\band\s*=\s*(\d+)` in the
text (all occurrences summed, not just the last); three occurrences with
operands 10, 20 and 5 yield 35, and a text with no occurrence yields 0. -/
theorem c2_abc_area_sum :
    (∀ t, (get_counts t).abc_area = (findAnd t).sum) ∧
    findAnd ("stage a: and = 10\nstage b: and = 20\nstage c: and = 5\n".toList) = [10, 20, 5] ∧
    (get_counts ("stage a: and = 10\nstage b: and = 20\nstage c: and = 5\n".toList)).abc_area = 35 ∧
    (get_counts ("42 objects only".toList)).abc_area = 0 := by
  exact ⟨fun t => rfl, by decide, by decide, by decide⟩

/-- C1 (counterexample): the claim reads the authoritative pattern as a
single LINE `<ws><integer><ws>cells<ws>`, but the code searches with
`re.MULTILINE` and `\s` matches newlines, so the pattern can span lines.
On `"1 objects 2 objects\n3\ncells"` no line matches the cells pattern
(so the claim prescribes the second `objects` value, 2), yet `get_counts`
returns 3, captured across the line break between `3` and `cells`. -/
theorem c1_counterexample :
    (splitLines ("1 objects 2 objects\n3\ncells".toList)).findSome? lineCellsValue = none ∧
    findObjects ("1 objects 2 objects\n3\ncells".toList) = [1, 2] ∧
    claimTotalCells ("1 objects 2 objects\n3\ncells".toList) = 2 ∧
    (get_counts ("1 objects 2 objects\n3\ncells".toList)).total_cells = 3 := by
  refine ⟨by decide, by decide, by decide, by decide⟩

/-- C1 (amended): the total cell count is the integer captured by the
leftmost match of the MULTILINE pattern `^\s*(\d+)\s+cells\s*$` when one
exists (the whitespace in that pattern may span line breaks, so the match
need not lie within a single line); otherwise the value of the second
non-overlapping `<integer> objects` match when at least two exist;
otherwise zero. -/
theorem c1_total_cell_policy :
    (∀ t, (get_counts t).total_cells =
      match searchCells t with
      | some n => n
      | none => match findObjects t with | _ :: m :: _ => m | _ => 0) ∧
    searchCells ("5 objects\n9 objects".toList) = none ∧
    (get_counts ("5 objects\n9 objects".toList)).total_cells = 9 ∧
    (get_counts ("5 objects\n9 objects\n 7 cells ".toList)).total_cells = 7 ∧
    (get_counts ("plain text".toList)).total_cells = 0 := by
  exact ⟨fun t => rfl, by decide, by decide, by decide, by decide⟩

/-- C10 (counterexample): on `"7\ncells\n1 cells\n2 cells"` two LINES
match the cells pattern (`1 cells` and `2 cells`, the first carrying 1),
but `get_counts` returns 7: the MULTILINE regex matches leftmost from the
very start of the text, spanning the break between `7` and `cells`. -/
theorem c10_counterexample :
    ((splitLines ("7\ncells\n1 cells\n2 cells".toList)).filter
        (fun l => (lineCellsValue l).isSome)).length = 2 ∧
    (splitLines ("7\ncells\n1 cells\n2 cells".toList)).findSome? lineCellsValue = some 1 ∧
    (get_counts ("7\ncells\n1 cells\n2 cells".toList)).total_cells = 7 := by
  refine ⟨by decide, by decide, by decide⟩

/-- C10 (amended): with several matches of the cells pattern in the text,
`get_counts` takes the integer of the leftmost match — the earliest
line-start position where the (possibly line-spanning) pattern matches —
and ignores all later matches; in particular a match at the very first
position always wins. -/
theorem c10_first_match_wins :
    (∀ t n, matchCells t = some n → searchCells t = some n) ∧
    (get_counts ("junk\n10 cells\n20 cells".toList)).total_cells = 10 ∧
    (get_counts ("7\ncells\n1 cells\n2 cells".toList)).total_cells = 7 := by
  refine ⟨fun t n h => ?_, by decide, by decide⟩
  cases t with
  | nil => simp [matchCells] at h
  | cons c cs => simp [searchCells, searchCellsGo, h]

/-- Witness for C10 (amended) at a concrete input: a first-position match
is returned by the search. -/
theorem c10_witness :
    matchCells (" 5 cells".toList) = some 5 ∧ searchCells (" 5 cells".toList) = some 5 :=
  ⟨by decide, c10_first_match_wins.1 _ 5 (by decide)⟩

/-- C3: the metric computation produces exactly
`logicCount = totalCellCount − flipFlopCount` with no clamping (negative
whenever the flip-flop count exceeds the total),
`ffArea = flipFlopCount × ffSizeWeight` and
`totalArea = abcArea + ffArea`. -/
theorem c3_metrics_formulas (tag : String) (ff total abc : Nat) (w : Int) :
    (computeMetrics tag ff total abc w).logic = (total : Int) - (ff : Int) ∧
    (computeMetrics tag ff total abc w).ff_area = (ff : Int) * w ∧
    (computeMetrics tag ff total abc w).total_area = (abc : Int) + (ff : Int) * w ∧
    ((total : Int) < (ff : Int) → (computeMetrics tag ff total abc w).logic < 0) := by
  refine ⟨rfl, rfl, rfl, fun h => ?_⟩
  simp only [computeMetrics]
  omega

/-- Witness for C3 at a concrete input with `flipFlopCount > totalCellCount`:
the logic count is reported negative. -/
theorem c3_witness :
    ((3 : Nat) : Int) < ((5 : Nat) : Int) ∧ (computeMetrics "t" 5 3 0 6).logic < 0 :=
  ⟨by decide, (c3_metrics_formulas "t" 5 3 0 6).2.2.2 (by decide)⟩

/-- C4: the metric computation never divides by zero: the ratio equals
`ff / total` when the total is positive and is exactly 0 when the total
is 0; the area percentage equals `ffArea / totalArea × 100` when the
total area is positive and is exactly 0 when the total area is not
positive. -/
theorem c4_no_div_by_zero (tag : String) (ff total abc : Nat) (w : Int) :
    (0 < total → (computeMetrics tag ff total abc w).ratio = (ff : ℚ) / (total : ℚ)) ∧
    (total = 0 → (computeMetrics tag ff total abc w).ratio = 0) ∧
    (0 < (computeMetrics tag ff total abc w).total_area →
      (computeMetrics tag ff total abc w).ff_area_pct =
        ((computeMetrics tag ff total abc w).ff_area : ℚ) /
          ((computeMetrics tag ff total abc w).total_area : ℚ) * 100) ∧
    ((computeMetrics tag ff total abc w).total_area ≤ 0 →
      (computeMetrics tag ff total abc w).ff_area_pct = 0) := by
  refine ⟨fun h => ?_, fun h => ?_, fun h => ?_, fun h => ?_⟩
  · simp [computeMetrics, h]
  · simp [computeMetrics, h]
  · simp only [computeMetrics] at h ⊢
    rw [if_pos h]
  · simp only [computeMetrics] at h ⊢
    rw [if_neg (by omega)]

/-- Witness for C4 at concrete inputs on both sides of each guard. -/
theorem c4_witness :
    (computeMetrics "t" 1 2 3 6).ratio = (1 : ℚ) / 2 ∧
    (computeMetrics "t" 1 0 3 6).ratio = 0 ∧
    (computeMetrics "t" 1 0 0 (-6)).ff_area_pct = 0 :=
  ⟨by
    have h := (c4_no_div_by_zero "t" 1 2 3 6).1 (by decide)
    simpa using h,
   (c4_no_div_by_zero "t" 1 0 3 6).2.1 rfl,
   (c4_no_div_by_zero "t" 1 0 0 (-6)).2.2.2 (by decide)⟩

/-- C7: for `ff ≤ total` the ratio lies in `[0, 1]` (and is exactly 0
when the total is 0); for non-negative weight the total area equals
`abcArea + ff × ffSizeWeight` and the area percentage lies in `[0, 100]`
whenever the total area is positive. -/
theorem c7_bounds (tag : String) (ff total abc : Nat) (w : Int)
    (hw : 0 ≤ w) (hft : ff ≤ total) :
    0 ≤ (computeMetrics tag ff total abc w).ratio ∧
    (computeMetrics tag ff total abc w).ratio ≤ 1 ∧
    (total = 0 → (computeMetrics tag ff total abc w).ratio = 0) ∧
    (computeMetrics tag ff total abc w).total_area = (abc : Int) + (ff : Int) * w ∧
    (0 < (computeMetrics tag ff total abc w).total_area →
      0 ≤ (computeMetrics tag ff total abc w).ff_area_pct ∧
      (computeMetrics tag ff total abc w).ff_area_pct ≤ 100) := by
  have hffa : (0 : Int) ≤ (ff : Int) * w := mul_nonneg (Int.natCast_nonneg ff) hw
  refine ⟨?_, ?_, fun h0 => ?_, rfl, fun hpos => ?_⟩
  · simp only [computeMetrics]
    by_cases ht : 0 < total
    · rw [if_pos ht]
      positivity
    · rw [if_neg ht]
  · simp only [computeMetrics]
    by_cases ht : 0 < total
    · rw [if_pos ht]
      rw [div_le_one (by exact_mod_cast ht)]
      exact_mod_cast hft
    · rw [if_neg ht]
      norm_num
  · simp [computeMetrics, h0]
  · simp only [computeMetrics] at hpos ⊢
    rw [if_pos hpos]
    have htQ : (0 : ℚ) < (((abc : Int) + (ff : Int) * w : Int) : ℚ) := by
      exact_mod_cast hpos
    have hfQ : (0 : ℚ) ≤ (((ff : Int) * w : Int) : ℚ) := by exact_mod_cast hffa
    have hle : (((ff : Int) * w : Int) : ℚ) ≤ (((abc : Int) + (ff : Int) * w : Int) : ℚ) := by
      have : ((ff : Int) * w) ≤ ((abc : Int) + (ff : Int) * w) := by
        have := Int.natCast_nonneg abc
        omega
      exact_mod_cast this
    constructor
    · positivity
    · have hd1 : (((ff : Int) * w : Int) : ℚ) / (((abc : Int) + (ff : Int) * w : Int) : ℚ) ≤ 1 :=
        (div_le_one htQ).mpr hle
      nlinarith [hd1]

/-- Witness for C7 at a concrete input. -/
theorem c7_witness :
    (0 : Int) ≤ 6 ∧ (1 : Nat) ≤ 2 ∧ 0 ≤ (computeMetrics "t" 1 2 3 6).ratio :=
  ⟨by decide, by decide, (c7_bounds "t" 1 2 3 6 (by decide) (by decide)).1⟩

/-- C5: a design whose artifact file is missing is reported to the error
stream and skipped while the loop continues with the remaining designs;
the run exits 1 exactly when no results were produced (which subsumes the
case of no designs: empty discovery exits 1 immediately), and exits 0
exactly when at least one result record was produced. -/
theorem c5_exit_codes (src : DesignSource) (ex : String → Bool)
    (cnts : String → Counts) (w : Int) :
    ((mainRun src ex cnts w).exitCode = 0 ∨ (mainRun src ex cnts w).exitCode = 1) ∧
    ((mainRun src ex cnts w).exitCode = 0 ↔ (mainRun src ex cnts w).results ≠ []) ∧
    (∀ d tag rest, ex (artifactPath tag) = false →
      processLoop ex cnts w ((d, tag) :: rest) =
        (("Artifact not found: " ++ artifactPath tag) :: (processLoop ex cnts w rest).1,
          (processLoop ex cnts w rest).2)) ∧
    (mainRun (DesignSource.discovery []) ex cnts w).exitCode = 1 := by
  have hfin : ∀ p : List String × List ResultRecord,
      ((finishRun p).exitCode = 0 ∨ (finishRun p).exitCode = 1) ∧
      ((finishRun p).exitCode = 0 ↔ (finishRun p).results ≠ []) := by
    intro p
    by_cases h : p.2.isEmpty = true
    · have h2 : p.2 = [] := by simpa [List.isEmpty_iff] using h
      simp [finishRun, h, h2]
    · have h2 : p.2 ≠ [] := by simpa [List.isEmpty_iff] using h
      simp [finishRun, h, h2]
  refine ⟨?_, ?_, fun d tag rest h => ?_, rfl⟩
  · cases src with
    | single d t => exact (hfin _).1
    | discovery ds =>
      cases ds with
      | nil => exact Or.inr rfl
      | cons a as => exact (hfin _).1
  · cases src with
    | single d t => exact (hfin _).2
    | discovery ds =>
      cases ds with
      | nil =>
        have e : mainRun (DesignSource.discovery []) ex cnts w =
            ⟨1, ["No designs found in artifacts/"], []⟩ := rfl
        rw [e]
        simp
      | cons a as => exact (hfin _).2
  · simp [processLoop, h]

/-- Witness for C5 at a concrete input: one specified design with a
missing artifact is reported and produces no result. -/
theorem c5_witness :
    (fun _ => false : String → Bool) (artifactPath "a") = false ∧
    processLoop (fun _ => false) (fun _ => ⟨0, 0, 0⟩) 6 [("a", "a")] =
      (["Artifact not found: artifacts/a.il"], []) := by
  refine ⟨rfl, ?_⟩
  have h := (c5_exit_codes (DesignSource.single "a" "a") (fun _ => false)
    (fun _ => ⟨0, 0, 0⟩) 6).2.2.1 "a" "a" [] rfl
  rw [h]
  rfl

/-- C9: the flip-flop selection query is exactly one token `t:<type>` per
registered cell type, space-separated, in registry order (144 registered
types); as a constant it is trivially the same on every run. -/
theorem c9_ff_select_tokens :
    splitOnChar ' ' ff_select.toList = FF_TYPES.map (fun t => ("t:" ++ t).toList) ∧
    FF_TYPES.length = 144 := by
  constructor
  · decide
  · decide

/-- C6: CSV rendering emits the fixed header row, and the record derived
from a raw text containing `42 objects`, `137 objects`, a line
`130 cells` and two `and = 50` occurrences, with weight 6, renders as the
exact row `tag,42,88,130,0.3231,100,252,352,71.59` (ratio to 4 decimal
places, area percentage to 2, the rest as plain integers). -/
theorem c6_csv_rendering :
    csvHeader = "design,ff,logic,total,ff_ratio,abc_area,ff_area,total_area,ff_area_pct" ∧
    csvRow (computeMetrics "tag"
        (get_counts ("42 objects\n137 objects\n 130 cells\nand = 50\nand = 50\n".toList)).ff_count
        (get_counts ("42 objects\n137 objects\n 130 cells\nand = 50\nand = 50\n".toList)).total_cells
        (get_counts ("42 objects\n137 objects\n 130 cells\nand = 50\nand = 50\n".toList)).abc_area
        6) = "tag,42,88,130,0.3231,100,252,352,71.59" := by
  constructor
  · rfl
  · have hc : get_counts ("42 objects\n137 objects\n 130 cells\nand = 50\nand = 50\n".toList)
        = ⟨42, 130, 100⟩ := by decide
    rw [hc]
    have hrec : computeMetrics "tag" 42 130 100 6 =
        ⟨"tag", 42, 88, 130, (42 : ℚ) / 130, 100, 252, 352, (252 : ℚ) / 352 * 100⟩ := by
      simp only [computeMetrics, ResultRecord.mk.injEq]
      norm_num
    rw [hrec]
    have hf1 : formatFixed 4 ((42 : ℚ) / 130) = "0.3231" := by
      have h0 : ¬ ((42 : ℚ) / 130 < 0) := by norm_num
      have hn : ⌊((42 : ℚ) / 130) * 10 ^ 4 + 1 / 2⌋ = (3231 : Int) := by
        rw [Int.floor_eq_iff]
        constructor <;> norm_num
      simp only [formatFixed, if_neg h0, hn]
      decide
    have hf2 : formatFixed 2 ((252 : ℚ) / 352 * 100) = "71.59" := by
      have h0 : ¬ ((252 : ℚ) / 352 * 100 < 0) := by norm_num
      have hn : ⌊((252 : ℚ) / 352 * 100) * 10 ^ 2 + 1 / 2⌋ = (7159 : Int) := by
        rw [Int.floor_eq_iff]
        constructor <;> norm_num
      simp only [formatFixed, if_neg h0, hn]
      decide
    simp only [csvRow, hf1, hf2]
    decide

end FFTool
